import Mathlib

/-!
Verification of the filter/aggregation/shaping pipeline of the `l1_compare`
dashboard (`src/app.py`, `src/data.py`).

The pandas dataframes of the source are embedded as Lean lists of typed rows:
the transaction-fee frame has columns `month`, `category`, `gas_fees` and the
TPS frame has columns `block_date`, `blockchain`, `tps`.  Numeric values are
modelled as rationals, pandas timestamps as a calendar date (an epoch day
count) plus a time-of-day component, and the raw JSON rows returned by the
data provider as association lists from column name to cell value.
-/

namespace L1Compare

/-- A pandas timestamp: a calendar date (as an epoch day count) plus a
time-of-day component.  `.dt.date` extracts `day` and discards `tod`. -/
structure Timestamp where
  day : Int
  tod : Nat
deriving DecidableEq, Repr

/-- A value of the period column: either a raw date-parseable representation
(carried as the timestamp it parses to) or an already-coerced datetime.
`pd.to_datetime` maps `raw t` to `dt t` and leaves `dt t` unchanged. -/
inductive PVal where
  | raw (t : Timestamp)
  | dt (t : Timestamp)
deriving DecidableEq, Repr

/-- `pd.to_datetime` applied to one period value. -/
def PVal.toDatetime : PVal → PVal
  | .raw t => .dt t
  | .dt t => .dt t

/-- The timestamp denoted by a period value. -/
def PVal.ts : PVal → Timestamp
  | .raw t => t
  | .dt t => t

/-- `.dt.date`: the calendar-date portion of a period value. -/
def PVal.date (v : PVal) : Int := v.ts.day

/-- Whether one period value is a datetime.  A pandas column satisfies
`pd.api.types.is_datetime64_any_dtype` exactly when every value in it is a
datetime. -/
def PVal.isDt : PVal → Bool
  | .raw _ => false
  | .dt _ => true

/-- One row of the transaction-fee dataframe (columns `month`, `category`,
`gas_fees`). -/
structure FeeRow where
  month : PVal
  category : String
  gas_fees : ℚ
deriving DecidableEq, Repr

/-- One row of the TPS dataframe (columns `block_date`, `blockchain`,
`tps`). -/
structure TpsRow where
  block_date : PVal
  blockchain : String
  tps : ℚ
deriving DecidableEq, Repr

/-- The user-selected filter criteria: an inclusive calendar-date range
(`date_range[0]`, `date_range[1]`) and the multiselect list of selected
category labels. -/
structure FilterCriteria where
  startDate : Int
  endDate : Int
  categories : List String
deriving DecidableEq, Repr

/-- `pd.api.types.is_datetime64_any_dtype(df['month'])` for the fee frame. -/
def isDatetimeMonth (df : List FeeRow) : Bool := df.all (fun r => r.month.isDt)

/-- `pd.api.types.is_datetime64_any_dtype(df['block_date'])` for the TPS
frame. -/
def isDatetimeBlockDate (df : List TpsRow) : Bool := df.all (fun r => r.block_date.isDt)

/-- `app.py` `apply_filters` (fee frame).  The function first converts the
`month` column to datetime *in place* when it is not one already, then keeps
the rows whose calendar date lies in the inclusive range and whose category
is among the selected ones.  The result is the pair (post-call state of the
caller's dataframe, filtered dataframe). -/
def apply_filters (df : List FeeRow) (c : FilterCriteria) : List FeeRow × List FeeRow :=
  let df1 := if isDatetimeMonth df then df
             else df.map (fun r => { r with month := r.month.toDatetime })
  let masked := df1.filter (fun r =>
    decide (c.startDate ≤ r.month.date) && decide (r.month.date ≤ c.endDate))
  let filtered := masked.filter (fun r => c.categories.contains r.category)
  (df1, filtered)

/-- `app.py` `apply_filters_tps` (TPS frame); identical logic on columns
`block_date` and `blockchain`. -/
def apply_filters_tps (df : List TpsRow) (c : FilterCriteria) : List TpsRow × List TpsRow :=
  let df1 := if isDatetimeBlockDate df then df
             else df.map (fun r => { r with block_date := r.block_date.toDatetime })
  let masked := df1.filter (fun r =>
    decide (c.startDate ≤ r.block_date.date) && decide (r.block_date.date ≤ c.endDate))
  let filtered := masked.filter (fun r => c.categories.contains r.blockchain)
  (df1, filtered)

/-- The filtered frame returned by `apply_filters`. -/
def applyFilter (df : List FeeRow) (c : FilterCriteria) : List FeeRow :=
  (apply_filters df c).2

/-- The filtered frame returned by `apply_filters_tps`. -/
def applyFilterTps (df : List TpsRow) (c : FilterCriteria) : List TpsRow :=
  (apply_filters_tps df c).2

/-- Lexicographic comparison of character lists by code point, as Python
compares strings. -/
def chListLe : List Char → List Char → Bool
  | [], _ => true
  | _ :: _, [] => false
  | a :: as, b :: bs =>
    if a.toNat < b.toNat then true
    else if b.toNat < a.toNat then false
    else chListLe as bs

/-- String comparison by code points, the order `sorted` and pandas group-key
sorting use on labels. -/
def strLeP (a b : String) : Prop := chListLe a.data b.data = true

instance : DecidableRel strLeP := fun a b => by unfold strLeP; infer_instance

/-- The ordering on each (category, total) pair used by
`sort_values`: compare the summed values. -/
def valLeP (a b : String × ℚ) : Prop := a.2 ≤ b.2

instance : DecidableRel valLeP := fun a b => by unfold valLeP; infer_instance

instance : IsTotal (String × ℚ) valLeP := ⟨fun a b => le_total a.2 b.2⟩

instance : IsTrans (String × ℚ) valLeP := ⟨fun _ _ _ h1 h2 => le_trans h1 h2⟩

/-- The group keys produced by `df.groupby('category')` (pandas sorts the
group keys ascending by default). -/
def groupKeys (df : List FeeRow) : List String :=
  List.insertionSort strLeP (df.map (fun r => r.category)).dedup

/-- `df.groupby('category')['gas_fees'].sum()` for one category key. -/
def catTotal (df : List FeeRow) (c : String) : ℚ :=
  ((df.filter (fun r => decide (r.category = c))).map (fun r => r.gas_fees)).sum

/-- `app.py` `display_metrics_and_table_transaction_fees`:
`df.groupby('category')['gas_fees'].sum().sort_values(ascending=False)`.
The group keys come out of `groupby` sorted alphabetically; pandas
`sort_values(ascending=False)` argsorts ascending (stably, for small inputs)
and then reverses the resulting order. -/
def blockchain_totals (df : List FeeRow) : List (String × ℚ) :=
  (List.insertionSort valLeP ((groupKeys df).map (fun c => (c, catTotal df c)))).reverse

/-- `df_copy.groupby('month')['gas_fees'].sum()` for one month key, as in
`create_transaction_fees_chart_relative`. -/
def monthTotal (df : List FeeRow) (m : PVal) : ℚ :=
  ((df.filter (fun r => decide (r.month = m))).map (fun r => r.gas_fees)).sum

/-- One row of the `df_pct` frame built in
`create_transaction_fees_chart_relative`. -/
structure PctRow where
  month : PVal
  category : String
  gas_fees : ℚ
  total_fees : ℚ
  percentage : ℚ
deriving DecidableEq, Repr

/-- `app.py` `create_transaction_fees_chart_relative`: each row is merged
with its month's total (`pd.merge` on `month`) and receives
`percentage = gas_fees / total_fees * 100`. -/
def df_pct (df : List FeeRow) : List PctRow :=
  df.map (fun r =>
    { month := r.month, category := r.category, gas_fees := r.gas_fees,
      total_fees := monthTotal df r.month,
      percentage := r.gas_fees / monthTotal df r.month * 100 })

/-- The (month, category) key of each fee row, the index/column pair of the
pivot. -/
def pivotKeys (df : List FeeRow) : List (PVal × String) :=
  df.map (fun r => (r.month, r.category))

/-- Ordering of period values (by day, then time of day), used for the pivot
index. -/
def pvalLe (a b : PVal) : Prop :=
  a.ts.day < b.ts.day ∨ (a.ts.day = b.ts.day ∧ a.ts.tod ≤ b.ts.tod)

instance : DecidableRel pvalLe := fun a b => by unfold pvalLe; infer_instance

/-- The distinct months of the pivot index, sorted descending
(`df.pivot` sorts the index ascending and `sort_index(ascending=False)`
reverses it). -/
def pivotMonths (df : List FeeRow) : List PVal :=
  (List.insertionSort pvalLe (df.map (fun r => r.month)).dedup).reverse

/-- The distinct categories of the pivot columns, in the sorted order pandas
gives the columns. -/
def pivotCats (df : List FeeRow) : List String :=
  List.insertionSort strLeP (df.map (fun r => r.category)).dedup

/-- The cell of the pivoted fee table at one (month, category) pair: the
value of the unique matching row, or missing (NaN) when no row matches. -/
def pivotCell (df : List FeeRow) (m : PVal) (c : String) : Option ℚ :=
  (df.find? (fun r => decide (r.month = m) && decide (r.category = c))).map
    (fun r => r.gas_fees)

/-- One row of the displayed fee pivot table: the month, the cells in
`pivotCats` order, and the appended `Total` column. -/
structure PivotRow where
  month : PVal
  cells : List (Option ℚ)
  total : ℚ
deriving DecidableEq, Repr

/-- The pivot of `display_metrics_and_table_transaction_fees`:
`df.pivot(index='month', columns='category', values='gas_fees')` raises
`ValueError` when two rows share a (month, category) pair; otherwise it
produces one row per distinct month (sorted descending after
`sort_index(ascending=False)`) with one cell per distinct category, missing
cells being NaN, and `pivoted_df['Total'] = pivoted_df.sum(axis=1)` appends
the row sum with NaN cells skipped. -/
def pivot_fees (df : List FeeRow) : Except String (List PivotRow) :=
  if (pivotKeys df).Nodup then
    .ok ((pivotMonths df).map (fun m =>
      let cells := (pivotCats df).map (fun c => pivotCell df m c)
      { month := m, cells := cells, total := (cells.filterMap id).sum }))
  else
    .error "ValueError: Index contains duplicate entries, cannot reshape"

/-- The TPS rows matching one (block_date, blockchain) pivot cell. -/
def tpsMatching (df : List TpsRow) (p : PVal) (c : String) : List TpsRow :=
  df.filter (fun r => decide (r.block_date = p) && decide (r.blockchain = c))

/-- One cell of the TPS table of `display_metrics_and_table_tps`:
`df.pivot_table(index='block_date', columns='blockchain', values='tps',
aggfunc='mean')` — the mean of the matching rows, absent when no row
matches. -/
def pivot_table_mean_cell (df : List TpsRow) (p : PVal) (c : String) : Option ℚ :=
  let ms := tpsMatching df p c
  if ms.isEmpty then none
  else some (((ms.map (fun r => r.tps)).sum) / (ms.length : ℚ))

/-- The outcome of a Python call that may raise: a value, or an uncaught
exception with its message. -/
inductive PyResult (α : Type) where
  | ok (a : α)
  | exn (msg : String)
deriving DecidableEq, Repr

/-- `apply_filters` as invoked by `main`: when the fetched frame is `None`
(the provider failed), the subscript `df['month']` on line 175 raises a
`TypeError` instead of filtering. -/
def apply_filters_checked (df : Option (List FeeRow)) (c : FilterCriteria) :
    PyResult (List FeeRow × List FeeRow) :=
  match df with
  | none => .exn "TypeError: NoneType object is not subscriptable"
  | some df => .ok (apply_filters df c)

/-- The transaction-fee path of `app.py` `main` after fetching:
`df_tx_fee` is `None` when the provider failed (`fetch_tx_fee` returns
`None`); `main` shows a warning in that case but still calls
`apply_filters(df_tx_fee)` unconditionally; when the filtered frame is empty
it warns and returns (`ok none`), otherwise the filtered frame is rendered
(`ok (some filtered)`). -/
def mainTxFee (df_tx_fee : Option (List FeeRow)) (c : FilterCriteria) :
    PyResult (Option (List FeeRow)) :=
  match apply_filters_checked df_tx_fee c with
  | .exn m => .exn m
  | .ok (_, filtered) => if filtered.isEmpty then .ok none else .ok (some filtered)

/-- A cell of a raw provider JSON row: a string, a number, or NaN (the value
pandas fills in for a key missing from one row). -/
inductive Val where
  | str (s : String)
  | num (q : ℚ)
  | nan
deriving DecidableEq, Repr

/-- A raw provider row, one JSON object: an association list from column
name to cell value. -/
abbrev RawRow := List (String × Val)

/-- `pd.DataFrame(rows).columns`: the union of the keys of all rows. -/
def dfColumns (rows : List RawRow) : List String :=
  (rows.map (fun row => row.map (fun kv => kv.1))).flatten.dedup

/-- The cell of a raw row at one column, NaN when the key is absent. -/
def lookupCell (row : RawRow) (c : String) : Val :=
  match row.find? (fun kv => decide (kv.1 = c)) with
  | some kv => kv.2
  | none => .nan

/-- The result of a `data.py` fetch function: `noData` models a `None`
return with no column complaint, `schemaErr missing` models the
missing-column failure (the columns are named in the logged error and the
function returns `None`), and `ok` carries the projected frame. -/
inductive FetchResult (α : Type) where
  | noData
  | schemaErr (missing : List String)
  | ok (a : α)
deriving DecidableEq, Repr

/-- The required columns of the transaction-fee dataset. -/
def requiredFeeCols : List String := ["month", "category", "gas_fees"]

/-- The required columns of the TPS dataset. -/
def requiredTpsCols : List String := ["block_date", "blockchain", "tps"]

/-- One projected transaction-fee record as returned by `fetch_tx_fee`. -/
structure TxFeeRec where
  month : Val
  category : Val
  gas_fees : Val
deriving DecidableEq, Repr

/-- One projected TPS record as returned by `fetch_tps_data`. -/
structure TpsRec where
  block_date : Val
  blockchain : Val
  tps : Val
deriving DecidableEq, Repr

/-- `data.py` `fetch_tx_fee` after the provider returned `data` (`none`
models a failed fetch).  `if data:` treats both `None` and an empty row list
as no data; then the three required columns are checked, the missing ones
being named in the error; on success the frame is the projection
`df[['month', 'category', 'gas_fees']]`. -/
def fetch_tx_fee (data : Option (List RawRow)) : FetchResult (List TxFeeRec) :=
  match data with
  | none => .noData
  | some rows =>
    if rows.isEmpty then .noData
    else if requiredFeeCols.all (fun c => (dfColumns rows).contains c) then
      .ok (rows.map (fun row =>
        { month := lookupCell row "month", category := lookupCell row "category",
          gas_fees := lookupCell row "gas_fees" }))
    else
      .schemaErr (requiredFeeCols.filter (fun c => !(dfColumns rows).contains c))

/-- Python `str.lower` for ASCII labels. -/
def pyLower (s : String) : String := String.mk (s.data.map Char.toLower)

/-- The character recursion behind Python `str.title`: the first letter of
each alphabetic run is uppercased and the following letters lowercased. -/
def pyTitleAux : List Char → Bool → List Char
  | [], _ => []
  | ch :: rest, prevCased =>
    if ch.isAlpha then
      (if prevCased then ch.toLower else ch.toUpper) :: pyTitleAux rest true
    else ch :: pyTitleAux rest false

/-- Python `str.title` for ASCII labels. -/
def pyTitle (s : String) : String := String.mk (pyTitleAux s.data false)

/-- The renaming lambda of `fetch_tps_data`:
`'Avalanche' if x.lower() == 'avalanche_c' or x.lower() == 'avalanche' else x.title()`. -/
def canonicalBlockchain (x : String) : String :=
  if pyLower x = "avalanche_c" ∨ pyLower x = "avalanche" then "Avalanche" else pyTitle x

/-- The renaming lambda applied to one cell: `x.lower()` on a non-string
cell raises; the exception is caught by the `except` of `fetch_tps_data`,
which then returns `None` — modelled as `none` here. -/
def renameVal : Val → Option Val
  | .str s => some (.str (canonicalBlockchain s))
  | _ => none

/-- `data.py` `fetch_tps_data`: as `fetch_tx_fee` on columns `block_date`,
`blockchain`, `tps`, but every `blockchain` cell is then canonicalized with
the renaming lambda; a non-string cell makes the lambda raise, which the
surrounding `except` turns into a `None` return. -/
def fetch_tps_data (data : Option (List RawRow)) : FetchResult (List TpsRec) :=
  match data with
  | none => .noData
  | some rows =>
    if rows.isEmpty then .noData
    else if requiredTpsCols.all (fun c => (dfColumns rows).contains c) then
      match (rows.map (fun row =>
          ({ block_date := lookupCell row "block_date",
             blockchain := lookupCell row "blockchain",
             tps := lookupCell row "tps" } : TpsRec))).mapM
          (fun r => (renameVal r.blockchain).map (fun b => { r with blockchain := b })) with
      | some out => .ok out
      | none => .noData
    else
      .schemaErr (requiredTpsCols.filter (fun c => !(dfColumns rows).contains c))

/-- The string carried by a string cell (only used under the hypothesis that
the cell is a string). -/
def strOfCell : Val → String
  | .str s => s
  | _ => ""

/-! Concrete inputs used by the witnesses and counterexamples. -/

/-- A sample month value (already datetime). -/
def exMonth : PVal := .dt ⟨0, 0⟩

/-- A second sample month value (already datetime). -/
def exMonth2 : PVal := .dt ⟨1, 0⟩

/-- Sample criteria selecting days 0..1 and two categories. -/
def exCrit : FilterCriteria := ⟨0, 1, ["BTC", "ETH"]⟩

/-- A sample fee frame with datetime months. -/
def exFeeDf : List FeeRow :=
  [⟨exMonth, "ETH", 2⟩, ⟨.dt ⟨5, 0⟩, "ETH", 3⟩, ⟨exMonth2, "SOL", 4⟩, ⟨exMonth2, "BTC", 7⟩]

/-- A sample TPS frame with datetime dates. -/
def exTpsDf : List TpsRow :=
  [⟨exMonth, "ETH", 2⟩, ⟨.dt ⟨5, 0⟩, "BTC", 3⟩, ⟨exMonth2, "BTC", 7⟩]

/-- A fee frame with a raw (not yet datetime) month, exhibiting the in-place
coercion of `apply_filters`. -/
def exRawDf : List FeeRow := [⟨.raw ⟨0, 5⟩, "ETH", 1⟩]

/-- A fee frame with two categories tied on total fees, first encountered in
the order AAA, ZZZ. -/
def exTieDf : List FeeRow := [⟨exMonth, "AAA", 5⟩, ⟨exMonth, "ZZZ", 5⟩]

/-- A fee frame with a duplicate (month, category) pair. -/
def exDupFeeDf : List FeeRow := [⟨exMonth, "A", 1⟩, ⟨exMonth, "A", 3⟩]

/-- A TPS frame with a duplicate (block_date, blockchain) pair. -/
def exDupTpsDf : List TpsRow := [⟨exMonth, "A", 1⟩, ⟨exMonth, "A", 3⟩]

/-- A fee frame with one month and two categories, for the pivot witness. -/
def exPivotDf : List FeeRow := [⟨exMonth, "B", 1⟩, ⟨exMonth, "A", 3⟩]

/-- The pivot table of `exPivotDf`. -/
def exPivotRows : List PivotRow := [⟨exMonth, [some 3, some 1], 4⟩]

/-- The single row of `exPivotRows`. -/
def exPivotRow : PivotRow := ⟨exMonth, [some 3, some 1], 4⟩

/-- Raw provider rows missing every required column. -/
def exBadRows : List RawRow := [[("foo", .num 1)]]

/-- Raw provider rows with the TPS schema and string blockchain labels. -/
def exTpsRows : List RawRow :=
  [[("block_date", .str "2024-01-01"), ("blockchain", .str "avalanche_c"), ("tps", .num 3)],
   [("block_date", .str "2024-01-01"), ("blockchain", .str "tron"), ("tps", .num 5)]]

/-! ### Helper lemmas -/

theorem isDt_toDatetime (v : PVal) : v.toDatetime.isDt = true := by
  cases v <;> rfl

theorem date_toDatetime (v : PVal) : v.toDatetime.date = v.date := by
  cases v <;> rfl

/-- The first component of `apply_filters` is the (possibly coerced) input
frame. -/
theorem apply_filters_fst (df : List FeeRow) (c : FilterCriteria) :
    (apply_filters df c).1 = if isDatetimeMonth df then df
      else df.map (fun r => { r with month := r.month.toDatetime }) := rfl

/-- The second component of `apply_filters` is the double filter of the
(possibly coerced) input frame. -/
theorem apply_filters_snd (df : List FeeRow) (c : FilterCriteria) :
    (apply_filters df c).2 = (((apply_filters df c).1).filter (fun r =>
      decide (c.startDate ≤ r.month.date) && decide (r.month.date ≤ c.endDate))).filter
        (fun r => c.categories.contains r.category) := rfl

/-- The first component of `apply_filters` (the coerced frame) has a
datetime month column. -/
theorem isDatetimeMonth_fst (df : List FeeRow) (c : FilterCriteria) :
    isDatetimeMonth (apply_filters df c).1 = true := by
  rw [apply_filters_fst]
  by_cases hd : isDatetimeMonth df = true
  · rw [if_pos hd]; exact hd
  · rw [if_neg hd]
    unfold isDatetimeMonth
    rw [List.all_eq_true]
    intro x hx
    obtain ⟨r0, _, rfl⟩ := List.mem_map.mp hx
    exact isDt_toDatetime _

theorem applyFilter_sublist (df : List FeeRow) (c : FilterCriteria) :
    List.Sublist (applyFilter df c) (apply_filters df c).1 := by
  rw [applyFilter, apply_filters_snd]
  exact ((List.filter_sublist _).trans (List.filter_sublist _))

/-- Every row of the filtered fee frame has a datetime month. -/
theorem mem_applyFilter_isDt {df : List FeeRow} {c : FilterCriteria} {r : FeeRow}
    (h : r ∈ applyFilter df c) : r.month.isDt = true := by
  have hmem : r ∈ (apply_filters df c).1 := (applyFilter_sublist df c).mem h
  have := isDatetimeMonth_fst df c
  unfold isDatetimeMonth at this
  exact List.all_eq_true.mp this r hmem

/-- When the month column is already datetime, `apply_filters` is a pure
double filter on the input. -/
theorem applyFilter_eq {df : List FeeRow} {c : FilterCriteria}
    (h : isDatetimeMonth df = true) :
    applyFilter df c = (df.filter (fun r =>
      decide (c.startDate ≤ r.month.date) && decide (r.month.date ≤ c.endDate))).filter
        (fun r => c.categories.contains r.category) := by
  unfold applyFilter apply_filters
  simp [h]

/-- The first component of `apply_filters_tps` is the (possibly coerced)
input frame. -/
theorem apply_filters_tps_fst (df : List TpsRow) (c : FilterCriteria) :
    (apply_filters_tps df c).1 = if isDatetimeBlockDate df then df
      else df.map (fun r => { r with block_date := r.block_date.toDatetime }) := rfl

/-- The second component of `apply_filters_tps` is the double filter of the
(possibly coerced) input frame. -/
theorem apply_filters_tps_snd (df : List TpsRow) (c : FilterCriteria) :
    (apply_filters_tps df c).2 = (((apply_filters_tps df c).1).filter (fun r =>
      decide (c.startDate ≤ r.block_date.date) && decide (r.block_date.date ≤ c.endDate))).filter
        (fun r => c.categories.contains r.blockchain) := rfl

theorem isDatetimeBlockDate_fst (df : List TpsRow) (c : FilterCriteria) :
    isDatetimeBlockDate (apply_filters_tps df c).1 = true := by
  rw [apply_filters_tps_fst]
  by_cases hd : isDatetimeBlockDate df = true
  · rw [if_pos hd]; exact hd
  · rw [if_neg hd]
    unfold isDatetimeBlockDate
    rw [List.all_eq_true]
    intro x hx
    obtain ⟨r0, _, rfl⟩ := List.mem_map.mp hx
    exact isDt_toDatetime _

theorem applyFilterTps_sublist (df : List TpsRow) (c : FilterCriteria) :
    List.Sublist (applyFilterTps df c) (apply_filters_tps df c).1 := by
  rw [applyFilterTps, apply_filters_tps_snd]
  exact ((List.filter_sublist _).trans (List.filter_sublist _))

/-- Every row of the filtered TPS frame has a datetime date. -/
theorem mem_applyFilterTps_isDt {df : List TpsRow} {c : FilterCriteria} {r : TpsRow}
    (h : r ∈ applyFilterTps df c) : r.block_date.isDt = true := by
  have hmem : r ∈ (apply_filters_tps df c).1 := (applyFilterTps_sublist df c).mem h
  have := isDatetimeBlockDate_fst df c
  unfold isDatetimeBlockDate at this
  exact List.all_eq_true.mp this r hmem

/-- When the date column is already datetime, `apply_filters_tps` is a pure
double filter on the input. -/
theorem applyFilterTps_eq {df : List TpsRow} {c : FilterCriteria}
    (h : isDatetimeBlockDate df = true) :
    applyFilterTps df c = (df.filter (fun r =>
      decide (c.startDate ≤ r.block_date.date) && decide (r.block_date.date ≤ c.endDate))).filter
        (fun r => c.categories.contains r.blockchain) := by
  unfold applyFilterTps apply_filters_tps
  simp [h]

/-! ### Claims about the filter stage -/

/-- C1: the filter retains a record iff the calendar-date portion of its
period lies between the inclusive start and end dates and its category is
among the selected ones; an empty selected set yields an empty result (not
an error), for both `apply_filters` and `apply_filters_tps`. -/
theorem claim1_filter_characterization (df : List FeeRow) (tdf : List TpsRow)
    (c : FilterCriteria) (h1 : isDatetimeMonth df = true)
    (h2 : isDatetimeBlockDate tdf = true) :
    (∀ r : FeeRow, r ∈ applyFilter df c ↔
      r ∈ df ∧ c.startDate ≤ r.month.date ∧ r.month.date ≤ c.endDate ∧
        r.category ∈ c.categories) ∧
    (∀ r : TpsRow, r ∈ applyFilterTps tdf c ↔
      r ∈ tdf ∧ c.startDate ≤ r.block_date.date ∧ r.block_date.date ≤ c.endDate ∧
        r.blockchain ∈ c.categories) ∧
    (c.categories = [] → applyFilter df c = [] ∧ applyFilterTps tdf c = []) := by
  refine ⟨fun r => ?_, fun r => ?_, fun hc => ?_⟩
  · rw [applyFilter_eq h1]
    simp only [List.mem_filter, Bool.and_eq_true, decide_eq_true_eq, List.contains,
      List.elem_eq_mem]
    tauto
  · rw [applyFilterTps_eq h2]
    simp only [List.mem_filter, Bool.and_eq_true, decide_eq_true_eq, List.contains,
      List.elem_eq_mem]
    tauto
  · rw [applyFilter_eq h1, applyFilterTps_eq h2, hc]
    constructor <;> · apply List.filter_eq_nil_iff.mpr; intro r _; simp [List.contains]

/-- Witness for C1 at a concrete frame and criteria. -/
theorem claim1_witness :
    isDatetimeMonth exFeeDf = true ∧ isDatetimeBlockDate exTpsDf = true ∧
    ((⟨exMonth, "ETH", 2⟩ : FeeRow) ∈ applyFilter exFeeDf exCrit ↔
      (⟨exMonth, "ETH", 2⟩ : FeeRow) ∈ exFeeDf ∧
        exCrit.startDate ≤ exMonth.date ∧ exMonth.date ≤ exCrit.endDate ∧
        "ETH" ∈ exCrit.categories) :=
  ⟨by decide, by decide,
    (claim1_filter_characterization exFeeDf exTpsDf exCrit (by decide) (by decide)).1 _⟩

/-- C8: the filter is idempotent — filtering twice with the same criteria
equals filtering once, for both frames. -/
theorem claim8_filter_idempotent :
    (∀ (df : List FeeRow) (c : FilterCriteria),
      applyFilter (applyFilter df c) c = applyFilter df c) ∧
    (∀ (tdf : List TpsRow) (c : FilterCriteria),
      applyFilterTps (applyFilterTps tdf c) c = applyFilterTps tdf c) := by
  constructor
  · intro df c
    have hdt : isDatetimeMonth (applyFilter df c) = true := by
      unfold isDatetimeMonth
      exact List.all_eq_true.mpr (fun r hr => mem_applyFilter_isDt hr)
    rw [applyFilter_eq hdt, List.filter_filter]
    apply List.filter_eq_self.mpr
    intro r hr
    have h1 : r ∈ applyFilter df c := hr
    rw [applyFilter, apply_filters_snd] at h1
    simp only [List.mem_filter, Bool.and_eq_true] at h1
    simp only [Bool.and_eq_true]
    exact ⟨h1.2, h1.1.2⟩
  · intro tdf c
    have hdt : isDatetimeBlockDate (applyFilterTps tdf c) = true := by
      unfold isDatetimeBlockDate
      exact List.all_eq_true.mpr (fun r hr => mem_applyFilterTps_isDt hr)
    rw [applyFilterTps_eq hdt, List.filter_filter]
    apply List.filter_eq_self.mpr
    intro r hr
    have h1 : r ∈ applyFilterTps tdf c := hr
    rw [applyFilterTps, apply_filters_tps_snd] at h1
    simp only [List.mem_filter, Bool.and_eq_true] at h1
    simp only [Bool.and_eq_true]
    exact ⟨h1.2, h1.1.2⟩

/-! ### Claims about mutation and provider failure -/

/-- C9 counterexample: `apply_filters` mutates its input in place — on a
frame whose month column is not yet datetime, the caller's frame differs
after the call (`df['month'] = pd.to_datetime(df['month'])`). -/
theorem claim9_counterexample : (apply_filters exRawDf exCrit).1 ≠ exRawDf := by
  decide

/-- C9 amended: the in-place datetime coercion of the period column is the
only mutation the filter stage performs — on a frame whose period column is
already datetime, both filter functions leave their input unchanged. -/
theorem claim9_amended (df : List FeeRow) (tdf : List TpsRow) (c : FilterCriteria)
    (h1 : isDatetimeMonth df = true) (h2 : isDatetimeBlockDate tdf = true) :
    (apply_filters df c).1 = df ∧ (apply_filters_tps tdf c).1 = tdf := by
  constructor
  · unfold apply_filters
    simp [h1]
  · unfold apply_filters_tps
    simp [h2]

/-- Witness for C9 amended at a concrete frame. -/
theorem claim9_witness :
    isDatetimeMonth exFeeDf = true ∧ isDatetimeBlockDate exTpsDf = true ∧
    (apply_filters exFeeDf exCrit).1 = exFeeDf ∧
    (apply_filters_tps exTpsDf exCrit).1 = exTpsDf := by
  refine ⟨by decide, by decide, ?_, ?_⟩
  · exact (claim9_amended exFeeDf exTpsDf exCrit (by decide) (by decide)).1
  · exact (claim9_amended exFeeDf exTpsDf exCrit (by decide) (by decide)).2

/-- C3: when the data provider fails for the transaction-fee dataset
(`fetch_tx_fee` returns `None`), `main` still calls `apply_filters` on the
`None` frame, which raises a `TypeError` instead of degrading to the empty
dataset — the pipeline crashes, contradicting the claim.  An empty frame, by
contrast, flows through to the empty-result warning. -/
theorem claim3_provider_failure_crashes :
    mainTxFee none exCrit = .exn "TypeError: NoneType object is not subscriptable" ∧
    mainTxFee (some []) exCrit = .ok none := by
  constructor <;> rfl

/-! ### Claims about the aggregation stage -/

/-- C4 counterexample: on two categories tied at total 5 and first
encountered in the order AAA, ZZZ, the code returns ZZZ first — the tie is
not broken by first-encountered order (the group keys are sorted
alphabetically by `groupby` and the descending sort reverses the ascending
order). -/
theorem claim4_counterexample :
    blockchain_totals exTieDf = [("ZZZ", (5 : ℚ)), ("AAA", 5)] ∧
    (exTieDf.map (fun r => r.category)).dedup = ["AAA", "ZZZ"] := by
  constructor
  · norm_num +decide [blockchain_totals, groupKeys, catTotal, exTieDf, exMonth,
      List.insertionSort, List.orderedInsert, List.dedup, strLeP, chListLe, valLeP,
      List.filter_cons, List.filter_nil]
  · decide

/-- C4 amended: `blockchain_totals` sums the value per distinct category and
orders the totals by sum descending, but ties are an artifact of reversing a
stable ascending sort of the alphabetically ordered group keys, not of
first-encountered input order. -/
theorem claim4_amended (df : List FeeRow) :
    (blockchain_totals df).Pairwise (fun a b => b.2 ≤ a.2) ∧
    List.Perm ((blockchain_totals df).map Prod.fst) (df.map (fun r => r.category)).dedup ∧
    (∀ p ∈ blockchain_totals df, p.2 = catTotal df p.1) := by
  refine ⟨?_, ?_, ?_⟩
  · rw [blockchain_totals, List.pairwise_reverse]
    exact List.sorted_insertionSort valLeP _
  · rw [blockchain_totals, List.map_reverse]
    refine (List.reverse_perm _).trans ?_
    refine ((List.perm_insertionSort valLeP _).map Prod.fst).trans ?_
    rw [List.map_map]
    have : (Prod.fst ∘ fun c => (c, catTotal df c)) = id := rfl
    rw [this, List.map_id, groupKeys]
    exact List.perm_insertionSort strLeP _
  · intro p hp
    rw [blockchain_totals, List.mem_reverse] at hp
    have hp2 := ((List.perm_insertionSort valLeP _).mem_iff).mp hp
    obtain ⟨c, _, rfl⟩ := List.mem_map.mp hp2
    rfl

/-- Witness for C4 amended at the tied concrete frame. -/
theorem claim4_witness :
    ("ZZZ", (5 : ℚ)) ∈ blockchain_totals exTieDf ∧
    ("ZZZ", (5 : ℚ)).2 = catTotal exTieDf "ZZZ" := by
  have hmem : ("ZZZ", (5 : ℚ)) ∈ blockchain_totals exTieDf := by
    norm_num +decide [blockchain_totals, groupKeys, catTotal, exTieDf, exMonth,
      List.insertionSort, List.orderedInsert, List.dedup, strLeP, chListLe, valLeP,
      List.filter_cons, List.filter_nil]
  exact ⟨hmem, (claim4_amended exTieDf).2.2 _ hmem⟩

/-! ### Claims about the shaping stage -/

theorem sum_filterMap_id (l : List (Option ℚ)) :
    (l.filterMap id).sum = (l.map (fun o => o.getD 0)).sum := by
  induction l with
  | nil => rfl
  | cons a l ih => cases a <;> simp [List.filterMap_cons, ih]

/-- C6: in every row of the fee pivot table, the synthesized `Total` column
equals the sum of that row's category cells (missing cells counting 0). -/
theorem claim6_pivot_total (df : List FeeRow) (rows : List PivotRow)
    (h : pivot_fees df = .ok rows) :
    ∀ row ∈ rows, row.total =
      ((pivotCats df).map (fun c => (pivotCell df row.month c).getD 0)).sum := by
  unfold pivot_fees at h
  by_cases hnd : (pivotKeys df).Nodup
  · rw [if_pos hnd] at h
    obtain rfl := (Except.ok.inj h).symm
    intro row hrow
    obtain ⟨m, _, rfl⟩ := List.mem_map.mp hrow
    show ((((pivotCats df).map (fun c => pivotCell df m c)).filterMap id).sum) = _
    rw [sum_filterMap_id, List.map_map]
    rfl
  · rw [if_neg hnd] at h
    exact absurd h (by simp)

/-- Witness for C6 at a concrete frame with one month and two categories. -/
theorem claim6_witness :
    pivot_fees exPivotDf = .ok exPivotRows ∧ exPivotRow ∈ exPivotRows ∧
    exPivotRow.total =
      ((pivotCats exPivotDf).map
        (fun c => (pivotCell exPivotDf exPivotRow.month c).getD 0)).sum := by
  have hok : pivot_fees exPivotDf = .ok exPivotRows := by
    norm_num +decide [pivot_fees, pivotKeys, pivotMonths, pivotCats, pivotCell, exPivotDf,
      exPivotRows, exMonth, List.insertionSort, List.orderedInsert, List.dedup, pvalLe,
      strLeP, chListLe, List.filter_cons, List.filter_nil, List.find?, List.filterMap]
  exact ⟨hok, by decide, claim6_pivot_total exPivotDf exPivotRows hok exPivotRow (by decide)⟩

/-- C2 counterexample: on two records sharing the (period, category) pair
with values 1 and 3, the fee pivot fails with `ValueError` (the table is not
produced), and the TPS pivot cell holds the mean 2, not the sum 4. -/
theorem claim2_counterexample :
    pivot_fees exDupFeeDf = .error "ValueError: Index contains duplicate entries, cannot reshape" ∧
    pivot_table_mean_cell exDupTpsDf exMonth "A" = some 2 ∧ (2 : ℚ) ≠ 1 + 3 := by
  refine ⟨rfl, ?_, by norm_num⟩
  norm_num +decide [pivot_table_mean_cell, tpsMatching, exDupTpsDf, exMonth,
    List.filter_cons, List.filter_nil]

/-- C2 amended: duplicate (period, category) pairs make the fee pivot
(`df.pivot`) raise `ValueError` rather than sum, and the TPS pivot
(`pivot_table` with `aggfunc='mean'`) aggregates the duplicate values by
their mean rather than their sum. -/
theorem claim2_amended (s : List FeeRow) (t : List TpsRow) (p : PVal) (c : String)
    (hdup : ¬ (pivotKeys s).Nodup) (hne : tpsMatching t p c ≠ []) :
    pivot_fees s = .error "ValueError: Index contains duplicate entries, cannot reshape" ∧
    pivot_table_mean_cell t p c =
      some (((tpsMatching t p c).map (fun r => r.tps)).sum /
        ((tpsMatching t p c).length : ℚ)) := by
  constructor
  · unfold pivot_fees
    rw [if_neg hdup]
  · unfold pivot_table_mean_cell
    rw [if_neg (by simp [List.isEmpty_iff, hne])]

/-- Witness for C2 amended at the duplicate concrete frames. -/
theorem claim2_witness :
    ¬ (pivotKeys exDupFeeDf).Nodup ∧ tpsMatching exDupTpsDf exMonth "A" ≠ [] ∧
    pivot_fees exDupFeeDf = .error "ValueError: Index contains duplicate entries, cannot reshape" ∧
    pivot_table_mean_cell exDupTpsDf exMonth "A" =
      some (((tpsMatching exDupTpsDf exMonth "A").map (fun r => r.tps)).sum /
        ((tpsMatching exDupTpsDf exMonth "A").length : ℚ)) :=
  ⟨by decide, by decide,
    (claim2_amended exDupFeeDf exDupTpsDf exMonth "A" (by decide) (by decide)).1,
    (claim2_amended exDupFeeDf exDupTpsDf exMonth "A" (by decide) (by decide)).2⟩

/-! ### Claims about the percentage computation -/

/-- C7: for every period whose total over the supplied series is nonzero,
the shares of `df_pct` (each `percentage / 100`, i.e. the record's value
divided by the period total of the input series) sum to exactly 1 over that
period. -/
theorem claim7_shares_sum_to_one (df : List FeeRow) (m : PVal)
    (hT : monthTotal df m ≠ 0) :
    (((df_pct df).filter (fun r => decide (r.month = m))).map
      (fun r => r.percentage / 100)).sum = 1 ∧
    (∀ r ∈ df_pct df, r.percentage / 100 = r.gas_fees / monthTotal df r.month) := by
  have hshare : ∀ r ∈ df_pct df, r.percentage / 100 = r.gas_fees / monthTotal df r.month := by
    intro r hr
    obtain ⟨r0, _, rfl⟩ := List.mem_map.mp hr
    show r0.gas_fees / monthTotal df r0.month * 100 / 100 = _
    rw [mul_div_cancel_right₀ _ (by norm_num : (100 : ℚ) ≠ 0)]
  refine ⟨?_, hshare⟩
  rw [df_pct, List.filter_map, List.map_map]
  have hpred : ((fun r : PctRow => decide (r.month = m)) ∘ fun r : FeeRow =>
      ({ month := r.month, category := r.category, gas_fees := r.gas_fees,
         total_fees := monthTotal df r.month,
         percentage := r.gas_fees / monthTotal df r.month * 100 } : PctRow)) =
      fun r : FeeRow => decide (r.month = m) := rfl
  rw [hpred]
  have hcong : (df.filter (fun r : FeeRow => decide (r.month = m))).map
      ((fun r : PctRow => r.percentage / 100) ∘ fun r : FeeRow =>
        ({ month := r.month, category := r.category, gas_fees := r.gas_fees,
           total_fees := monthTotal df r.month,
           percentage := r.gas_fees / monthTotal df r.month * 100 } : PctRow)) =
      (df.filter (fun r : FeeRow => decide (r.month = m))).map
        (fun r : FeeRow => r.gas_fees * (monthTotal df m)⁻¹) := by
    apply List.map_congr_left
    intro r hr
    have hm : r.month = m := by
      have := (List.mem_filter.mp hr).2
      simpa using this
    show r.gas_fees / monthTotal df r.month * 100 / 100 = _
    rw [mul_div_cancel_right₀ _ (by norm_num : (100 : ℚ) ≠ 0), hm, div_eq_mul_inv]
  rw [hcong, List.sum_map_mul_right]
  have hsum : ((df.filter (fun r : FeeRow => decide (r.month = m))).map
      (fun r : FeeRow => r.gas_fees)).sum = monthTotal df m := rfl
  rw [hsum, mul_inv_cancel₀ hT]

/-- Witness for C7 at a concrete frame whose single period has total 4. -/
theorem claim7_witness :
    monthTotal exDupFeeDf exMonth ≠ 0 ∧
    (((df_pct exDupFeeDf).filter (fun r => decide (r.month = exMonth))).map
      (fun r => r.percentage / 100)).sum = 1 := by
  have hT : monthTotal exDupFeeDf exMonth ≠ 0 := by
    norm_num +decide [monthTotal, exDupFeeDf, exMonth, List.filter_cons, List.filter_nil]
  exact ⟨hT, (claim7_shares_sum_to_one exDupFeeDf exMonth hT).1⟩

/-! ### Claims about the normalization / fetch stage -/

/-- `fetch_tx_fee` on a present dataset, as an unfolded conditional. -/
theorem fetch_tx_fee_some (rows : List RawRow) :
    fetch_tx_fee (some rows) =
      if rows.isEmpty then .noData
      else if requiredFeeCols.all (fun c => (dfColumns rows).contains c) then
        .ok (rows.map (fun row =>
          { month := lookupCell row "month", category := lookupCell row "category",
            gas_fees := lookupCell row "gas_fees" }))
      else .schemaErr (requiredFeeCols.filter (fun c => !(dfColumns rows).contains c)) := rfl

/-- `fetch_tps_data` on a present dataset, as an unfolded conditional. -/
theorem fetch_tps_data_some (rows : List RawRow) :
    fetch_tps_data (some rows) =
      if rows.isEmpty then .noData
      else if requiredTpsCols.all (fun c => (dfColumns rows).contains c) then
        match (rows.map (fun row =>
            ({ block_date := lookupCell row "block_date",
               blockchain := lookupCell row "blockchain",
               tps := lookupCell row "tps" } : TpsRec))).mapM
            (fun r => (renameVal r.blockchain).map (fun b => { r with blockchain := b })) with
        | some out => .ok out
        | none => .noData
      else .schemaErr (requiredTpsCols.filter (fun c => !(dfColumns rows).contains c)) := rfl

/-- The missing-column list of a fetch error is nonempty and holds exactly
the required columns absent from the raw data. -/
theorem missing_filter_spec (req : List String) (rows : List RawRow)
    (h : req.all (fun c => (dfColumns rows).contains c) = false) :
    req.filter (fun c => !(dfColumns rows).contains c) ≠ [] ∧
    (∀ col, col ∈ req.filter (fun c => !(dfColumns rows).contains c) ↔
      (col ∈ req ∧ col ∉ dfColumns rows)) := by
  constructor
  · obtain ⟨col, hcol, hnc⟩ := List.all_eq_false.mp h
    refine List.ne_nil_of_mem (a := col) ?_
    rw [List.mem_filter]
    exact ⟨hcol, by simpa using hnc⟩
  · intro col
    rw [List.mem_filter]
    simp [List.contains, List.elem_eq_mem]

/-- C5: when any required column is absent from a (nonempty) raw dataset,
both fetch functions fail with the schema error naming exactly the missing
required columns, and no frame is produced. -/
theorem claim5_schema_error (rows : List RawRow) (hne : rows ≠ [])
    (hf : requiredFeeCols.all (fun c => (dfColumns rows).contains c) = false)
    (ht : requiredTpsCols.all (fun c => (dfColumns rows).contains c) = false) :
    (∃ miss, fetch_tx_fee (some rows) = .schemaErr miss ∧ miss ≠ [] ∧
      ∀ col, col ∈ miss ↔ (col ∈ requiredFeeCols ∧ col ∉ dfColumns rows)) ∧
    (∃ miss, fetch_tps_data (some rows) = .schemaErr miss ∧ miss ≠ [] ∧
      ∀ col, col ∈ miss ↔ (col ∈ requiredTpsCols ∧ col ∉ dfColumns rows)) := by
  have hemp : ¬ (rows.isEmpty = true) := by simp [List.isEmpty_iff, hne]
  constructor
  · refine ⟨_, ?_, (missing_filter_spec requiredFeeCols rows hf).1,
      (missing_filter_spec requiredFeeCols rows hf).2⟩
    rw [fetch_tx_fee_some, if_neg hemp, if_neg (by rw [hf]; simp)]
  · refine ⟨_, ?_, (missing_filter_spec requiredTpsCols rows ht).1,
      (missing_filter_spec requiredTpsCols rows ht).2⟩
    rw [fetch_tps_data_some, if_neg hemp, if_neg (by rw [ht]; simp)]

/-- Witness for C5 at a raw dataset missing every required column. -/
theorem claim5_witness :
    exBadRows ≠ [] ∧
    (requiredFeeCols.all fun c => (dfColumns exBadRows).contains c) = false ∧
    (requiredTpsCols.all fun c => (dfColumns exBadRows).contains c) = false ∧
    (∃ miss, fetch_tx_fee (some exBadRows) = .schemaErr miss ∧ miss ≠ [] ∧
      ∀ col, col ∈ miss ↔ (col ∈ requiredFeeCols ∧ col ∉ dfColumns exBadRows)) :=
  ⟨by decide, by decide, by decide,
    (claim5_schema_error exBadRows (by decide) (by decide) (by decide)).1⟩

/-! ### Claim about the TPS label canonicalization -/

theorem mapM_eq_map_of {α β : Type} (l : List α) (f : α → Option β) (g : α → β)
    (h : ∀ a ∈ l, f a = some (g a)) : l.mapM f = some (l.map g) := by
  induction l with
  | nil => rfl
  | cons a l ih =>
    rw [List.mapM_cons, h a (by simp), ih (fun x hx => h x (by simp [hx]))]
    rfl

/-- C10: `fetch_tps_data` canonicalizes every blockchain label of the
returned series — labels lowercasing to `avalanche_c` or `avalanche` become
`Avalanche`, every other label is title-cased. -/
theorem claim10_canonicalize (rows : List RawRow) (hne : rows ≠ [])
    (hcols : requiredTpsCols.all (fun c => (dfColumns rows).contains c) = true)
    (hstr : ∀ row ∈ rows, ∃ s, lookupCell row "blockchain" = .str s) :
    fetch_tps_data (some rows) = .ok (rows.map (fun row =>
      { block_date := lookupCell row "block_date",
        blockchain := .str (canonicalBlockchain (strOfCell (lookupCell row "blockchain"))),
        tps := lookupCell row "tps" })) ∧
    (∀ x, (pyLower x = "avalanche_c" ∨ pyLower x = "avalanche") →
      canonicalBlockchain x = "Avalanche") ∧
    (∀ x, ¬ (pyLower x = "avalanche_c" ∨ pyLower x = "avalanche") →
      canonicalBlockchain x = pyTitle x) := by
  refine ⟨?_, fun x hx => by rw [canonicalBlockchain, if_pos hx],
    fun x hx => by rw [canonicalBlockchain, if_neg hx]⟩
  have hemp : ¬ (rows.isEmpty = true) := by simp [List.isEmpty_iff, hne]
  rw [fetch_tps_data_some, if_neg hemp, if_pos hcols]
  rw [mapM_eq_map_of _ _ (fun r : TpsRec =>
    ({ block_date := r.block_date,
       blockchain := .str (canonicalBlockchain (strOfCell r.blockchain)),
       tps := r.tps } : TpsRec)) ?_]
  · rw [List.map_map]
    rfl
  · intro r hr
    obtain ⟨row, hrow, rfl⟩ := List.mem_map.mp hr
    obtain ⟨s, hs⟩ := hstr row hrow
    show (renameVal (lookupCell row "blockchain")).map _ = _
    rw [hs]
    rfl

/-- Witness for C10: a concrete raw dataset whose labels `avalanche_c` and
`tron` come back as `Avalanche` and `Tron`. -/
theorem claim10_witness :
    exTpsRows ≠ [] ∧
    (requiredTpsCols.all fun c => (dfColumns exTpsRows).contains c) = true ∧
    fetch_tps_data (some exTpsRows) = .ok (exTpsRows.map (fun row =>
      { block_date := lookupCell row "block_date",
        blockchain := .str (canonicalBlockchain (strOfCell (lookupCell row "blockchain"))),
        tps := lookupCell row "tps" })) ∧
    fetch_tps_data (some exTpsRows) = .ok
      [⟨.str "2024-01-01", .str "Avalanche", .num 3⟩,
       ⟨.str "2024-01-01", .str "Tron", .num 5⟩] :=
  ⟨by decide, by decide,
    (claim10_canonicalize exTpsRows (by decide) (by decide)
      (by intro row hrow
          rw [exTpsRows] at hrow
          simp only [List.mem_cons, List.not_mem_nil, or_false] at hrow
          rcases hrow with rfl | rfl
          · exact ⟨"avalanche_c", rfl⟩
          · exact ⟨"tron", rfl⟩)).1,
    by decide⟩

end L1Compare
